import Mathlib

/-!
A shallow embedding of `src/ocijail/process.cpp` (the process-launch
subsystem of the ocijail OCI runtime) together with theorems checking the
natural-language specification against it.

C++ `std::string` values are modelled as `List Char`; the untyped JSON
configuration document (nlohmann::json) is modelled by the inductive `JVal`;
operating-system calls (`eaccess`, `is_regular_file`, `setgroups`, `setgid`,
`setuid`, `umask`, `dup2`, `close_range`) are modelled by explicit oracles or
by explicit state (a file-descriptor table), so that every definition is
executable and every temporal claim can be read off an explicit trace.
-/

set_option autoImplicit false

namespace Ocijail

/-- C++ `std::string`, modelled as a list of characters. -/
abbrev Str := List Char

/-- The untyped configuration document (`nlohmann::json`). -/
inductive JVal where
  | null
  | bool (b : Bool)
  | num (n : Int)
  | str (s : Str)
  | arr (elems : List JVal)
  | obj (fields : List (Str × JVal))

instance : Inhabited JVal := ⟨.null⟩

/-- `json::operator[]` over an object's field list: the value of the first
field with the given key, `null` when absent. -/
def jlookupFields : List (Str × JVal) → Str → JVal
  | [], _ => .null
  | (k, v) :: rest, key => if k = key then v else jlookupFields rest key

/-- `json::operator[]` on an object: the value of the first field with the
given key, `null` when absent (nlohmann returns a null value for a missing
key on a non-const object). -/
def jlookup : JVal → Str → JVal
  | .obj fields, key => jlookupFields fields key
  | _, _ => .null

/-- `json::contains`. -/
def jcontains : JVal → Str → Bool
  | .obj fields, key => fields.any (fun f => f.1 = key)
  | _, _ => false

/-- `json::is_object`. -/
def JVal.isObj : JVal → Bool
  | .obj _ => true
  | _ => false

/-- `json::is_number`. -/
def JVal.isNum : JVal → Bool
  | .num _ => true
  | _ => false

/-- Numeric value of a JSON number (0 on other values; only used under an
`isNum` guard, mirroring the checked conversions in the constructor). -/
def JVal.toInt : JVal → Int
  | .num n => n
  | _ => 0

/-- The two construction-time error kinds of §7 of the spec.
Modelled from the spec: `malformed_config` and the exception type it throws
are declared in `ocijail/process.h`, which is not part of the sources;
per §7 a shape violation is a `MalformedConfig` and the cross-field
`std::runtime_error` throws at the end of the constructor are the distinct
`ConfigurationConflict` kind. -/
inductive Err where
  | malformedConfig (msg : Str)
  | configurationConflict (msg : Str)
deriving DecidableEq

/-- `std::system_error`: an OS error code (`errno`) plus a message. -/
structure SysErr where
  code : Int
  msg : Str
deriving DecidableEq

/-- Modelled from the spec: the default member initializers of `uid_`,
`gid_` and `umask_` live in `ocijail/process.h`, which is not part of the
sources ("umask unset" per §3); they are carried as explicit parameters so
that no theorem depends on their concrete values. -/
structure Defaults where
  uid0 : Int
  gid0 : Int
  umask0 : Int

/-- The validated process description (the `process` class state). -/
structure ProcessSpec where
  cwd : Str
  args : List Str
  uid : Int
  gid : Int
  gids : List Int
  umask : Int
  env : List Str
  terminal : Bool
  console_socket : Option Str
  detach : Bool
  preserve_fds : Nat
deriving DecidableEq

/-! ### Environment lookup and mutation (`process::getenv`, `process::setenv`) -/

/-- The part of an environment entry before the first `=`
(`envv.substr(0, pos)` with `pos = envv.find` of the separator; the whole
entry when there is no separator, matching `substr(0, npos)`). -/
def envKey (s : Str) : Str := s.takeWhile (fun c => c ≠ '=')

/-- The part of an environment entry after the first `=`
(`envv.substr(pos + 1)`); the empty string when there is no separator,
which is exactly what `process::getenv` returns in that case. -/
def envVal (s : Str) : Str := (s.dropWhile (fun c => c ≠ '=')).tail

/-- The entry `key=val` built by `process::setenv`. -/
def envEntry (key val : Str) : Str := key ++ '=' :: val

/-- `process::getenv`: scan the environment in order, match on the part
before the first `=`, return the part after it (empty when no `=`). -/
def getenvList (key : Str) : List Str → Option Str
  | [] => none
  | e :: rest =>
    if envKey e = key then some (envVal e) else getenvList key rest

/-- `process::setenv`: scan the environment in order; each scanned entry is
asserted to contain `=` (`assert(pos != std::string_view::npos)`, modelled
as `none` when violated); the first entry whose key matches is overwritten
in place, otherwise `key=val` is appended. -/
def setenvList (key val : Str) : List Str → Option (List Str)
  | [] => some [envEntry key val]
  | e :: rest =>
    if '=' ∈ e then
      if envKey e = key then some (envEntry key val :: rest)
      else (setenvList key val rest).map (fun l => e :: l)
    else none

/-! ### ProcessSpec construction (`process::process`) -/

/-- Field names and diagnostic messages used by the constructor. -/
def kCwd : Str := "cwd".data

def kArgs : Str := "args".data

def kUser : Str := "user".data

def kUid : Str := "uid".data

def kGid : Str := "gid".data

def kUmask : Str := "umask".data

def kAdditionalGids : Str := "additionalGids".data

def kEnv : Str := "env".data

def kTerminal : Str := "terminal".data

def kPATH : Str := "PATH".data

def mProcessObj : Str := "process must be an object".data

def mNoCwd : Str := "no process.cwd".data

def mCwdStr : Str := "process.cwd must be a string".data

def mNoArgs : Str := "no process.args".data

def mArgsArr : Str := "process.args must be an array".data

def mArgsNonempty : Str := "process.args must have at least one element".data

def mArgsStrs : Str := "process.args must be an array of strings".data

def mUserObj : Str := "process.user must be an object".data

def mUidNum : Str := "process.user.uid must be a number".data

def mGidNum : Str := "process.user.gid must be a number".data

def mUmaskNum : Str := "process.user.umask must be a number".data

def mAddArr : Str := "process.user.additionalGids must be an array".data

def mAddNums : Str := "process.user.additionalGids must be an array of numbers".data

def mEnvArr : Str := "process.env must be an array".data

def mEnvStrs : Str := "process.env must be an array of strings".data

def mTermBool : Str := "process.terminal must be a boolean".data

def mConsoleRequired : Str :=
  "--console-socket is required when detached if process.terminal is true".data

def mConsoleNotSocket : Str :=
  "--console-socket must be a path to a local domain socket".data

def mConsoleNotTerminal : Str :=
  "--console-socket provided but process.terminal is false".data

/-- The per-element loop over `process.args` / `process.env`: every element
must be a string (first offender raises `malformed_config` with the given
message). -/
def parseStrs (msg : Str) : List JVal → Except Err (List Str)
  | [] => .ok []
  | .str s :: rest => (parseStrs msg rest).map (fun l => s :: l)
  | _ :: _ => .error (.malformedConfig msg)

/-- The per-element loop over `process.user.additionalGids`: every element
must be a number. -/
def parseNums (msg : Str) : List JVal → Except Err (List Int)
  | [] => .ok []
  | .num n :: rest => (parseNums msg rest).map (fun l => n :: l)
  | _ :: _ => .error (.malformedConfig msg)

/-- The identity fields produced by the `process.user` block of the
constructor. -/
structure IdentityParts where
  uid : Int
  gid : Int
  gids : List Int
  umask : Int
deriving DecidableEq

/-- The `process.user` block of the constructor (lines 56–95): a present,
non-null `user` must be an object with numeric `uid` and `gid`; a present
non-numeric `umask` raises `malformed_config` (the assignment `umask_ =
user["umask"]` sits after the raise and is unreachable, so `umask` always
keeps its default); `gid` is pushed onto `gids_` first, then the entries of
`additionalGids` in order. A present-but-null `user` skips the whole block
(identity fields keep their defaults and `gids_` stays empty); an absent
`user` takes the explicit else-branch uid=0, gid=0, gids=[0]. -/
def parseUser (d : Defaults) (j : JVal) : Except Err IdentityParts :=
  if jcontains j kUser then
    match jlookup j kUser with
    | .null => .ok ⟨d.uid0, d.gid0, [], d.umask0⟩
    | .obj fields =>
      match jlookup (.obj fields) kUid with
      | .num uid =>
        match jlookup (.obj fields) kGid with
        | .num gid =>
          if jcontains (.obj fields) kUmask
              && !(jlookup (.obj fields) kUmask).isNum then
            .error (.malformedConfig mUmaskNum)
          else if jcontains (.obj fields) kAdditionalGids then
            match jlookup (.obj fields) kAdditionalGids with
            | .arr l =>
              (parseNums mAddNums l).map (fun gs => ⟨uid, gid, gid :: gs, d.umask0⟩)
            | _ => .error (.malformedConfig mAddArr)
          else .ok ⟨uid, gid, [gid], d.umask0⟩
        | _ => .error (.malformedConfig mGidNum)
      | _ => .error (.malformedConfig mUidNum)
    | _ => .error (.malformedConfig mUserObj)
  else .ok ⟨0, 0, [0], d.umask0⟩

/-- The `process.env` block of the constructor (lines 97–108): entries are
validated as strings only — nothing requires a `=` separator. -/
def parseEnv (j : JVal) : Except Err (List Str) :=
  if jcontains j kEnv then
    match jlookup j kEnv with
    | .arr l => parseStrs mEnvStrs l
    | _ => .error (.malformedConfig mEnvArr)
  else .ok []

/-- The `process.terminal` block (lines 110–115); `terminal_` defaults to
false (§4.1 of the spec) when the field is absent. -/
def parseTerminal (j : JVal) : Except Err Bool :=
  if jcontains j kTerminal then
    match jlookup j kTerminal with
    | .bool b => .ok b
    | _ => .error (.malformedConfig mTermBool)
  else .ok false

/-- Everything the constructor parses before the console-socket cross-field
check. -/
structure Phase1 where
  cwd : Str
  args : List Str
  uid : Int
  gid : Int
  gids : List Int
  umask : Int
  env : List Str
  terminal : Bool
deriving DecidableEq

/-- Lines 26–115 of the constructor, in source order: object check, `cwd`,
`args`, `user`, `env`, `terminal`; the first `malformed_config` raise wins. -/
def parsePhase1 (d : Defaults) (j : JVal) : Except Err Phase1 :=
  if !j.isObj then .error (.malformedConfig mProcessObj)
  else if !jcontains j kCwd then .error (.malformedConfig mNoCwd)
  else
    match jlookup j kCwd with
    | .str cwd =>
      if !jcontains j kArgs then .error (.malformedConfig mNoArgs)
      else
        match jlookup j kArgs with
        | .arr argsJ =>
          match argsJ with
          | [] => .error (.malformedConfig mArgsNonempty)
          | _ :: _ =>
            match parseStrs mArgsStrs argsJ with
            | .error e => .error e
            | .ok args =>
              match parseUser d j with
              | .error e => .error e
              | .ok idp =>
                match parseEnv j with
                | .error e => .error e
                | .ok env =>
                  match parseTerminal j with
                  | .error e => .error e
                  | .ok terminal =>
                    .ok ⟨cwd, args, idp.uid, idp.gid, idp.gids, idp.umask, env,
                      terminal⟩
        | _ => .error (.malformedConfig mArgsArr)
    | _ => .error (.malformedConfig mCwdStr)

/-- The console-socket cross-field check at the end of the constructor
(lines 116–131); `isSocket` is the `fs::is_socket` filesystem-stat oracle. -/
def crossCheck (isSocket : Str → Bool) (terminal detach : Bool)
    (console : Option Str) : Except Err Unit :=
  if terminal then
    if detach then
      match console with
      | none => .error (.configurationConflict mConsoleRequired)
      | some cs =>
        if !isSocket cs then .error (.configurationConflict mConsoleNotSocket)
        else .ok ()
    else .ok ()
  else
    match console with
    | some _ => .error (.configurationConflict mConsoleNotTerminal)
    | none => .ok ()

/-- `process::process`: parse the document, then run the cross-field check;
a thrown error aborts construction (never a partially constructed value). -/
def construct (d : Defaults) (j : JVal) (console : Option Str) (detach : Bool)
    (preserve_fds : Nat) (isSocket : Str → Bool) : Except Err ProcessSpec :=
  match parsePhase1 d j with
  | .error e => .error e
  | .ok p1 =>
    match crossCheck isSocket p1.terminal detach console with
    | .error e => .error e
    | .ok _ =>
      .ok ⟨p1.cwd, p1.args, p1.uid, p1.gid, p1.gids, p1.umask, p1.env,
        p1.terminal, console, detach, preserve_fds⟩

/-! ### Command-path validation (`process::validate`) -/

/-- `errno` values on FreeBSD. -/
def EACCES : Int := 13

def ENOENT : Int := 2

/-- A single-quote character (used in the not-found diagnostic). -/
def squote : Char := Char.ofNat 39

/-- The diagnostic built by `process::validate` when every attempt fails. -/
def notFoundMsg (cmd : Str) : Str :=
  squote :: cmd ++ squote :: " not found in $PATH".data

/-- `std::filesystem::path::operator/` for POSIX paths, as used on
`path_element / cmd` and `cwd_ / cmd`: an absolute right-hand side replaces
the left, an empty or separator-terminated left is concatenated directly,
otherwise a separator is inserted. -/
def pathConcat (e c : Str) : Str :=
  if c.head? = some '/' then c
  else if e = [] then c
  else if e.getLast? = some '/' then e ++ c
  else e ++ '/' :: c

/-- The element-splitting of the `$PATH` while-loop (lines 180–194): take
the prefix up to the first `:`, continue on the remainder; the loop exits
when the remaining string is empty, so a trailing `:` yields no further
element, while an empty prefix between (or before) colons *is* an element. -/
def splitColonGo (cur : Str) : Str → List Str
  | [] => [cur]
  | c :: tl =>
    if c = ':' then
      cur :: (match tl with | [] => [] | _ :: _ => splitColonGo [] tl)
    else splitColonGo (cur ++ [c]) tl

/-- The list of `path_element` values produced by the `$PATH` loop. -/
def splitColon : Str → List Str
  | [] => []
  | c :: tl => splitColonGo [] (c :: tl)

/-- The body of the `$PATH` loop: test `path_element / cmd` with `eaccess`
for each element in order, stopping at the first success. Returns the list
of candidates actually passed to `eaccess` and whether one succeeded. -/
def searchLoop (eacc : Str → Option Int) (cmd : Str) : List Str → List Str × Bool
  | [] => ([], false)
  | e :: rest =>
    let cand := pathConcat e cmd
    if eacc cand = none then ([cand], true)
    else
      let r := searchLoop eacc cmd rest
      (cand :: r.1, r.2)

/-- `process::validate`, instrumented with the list of paths passed to
`eaccess` in order. `eacc` models `::eaccess(path, X_OK)` (`none` = success,
`some errno` = failure) and `isReg` models `fs::is_regular_file`. -/
def validateT (eacc : Str → Option Int) (isReg : Str → Bool)
    (p : ProcessSpec) : List Str × Except SysErr Unit :=
  let cmd := p.args.headD []
  if cmd.head? = some '/' then
    match eacc cmd with
    | some e => ([cmd], .error ⟨e, cmd⟩)
    | none =>
      if !isReg cmd then ([cmd], .error ⟨EACCES, cmd⟩)
      else ([cmd], .ok ())
  else
    let sr :=
      match getenvList kPATH p.env with
      | some pathv => searchLoop eacc cmd (splitColon pathv)
      | none => ([], false)
    if sr.2 then (sr.1, .ok ())
    else
      let workdir := pathConcat p.cwd cmd
      if (eacc workdir).isNone && isReg workdir then
        (sr.1 ++ [workdir], .ok ())
      else (sr.1 ++ [workdir], .error ⟨ENOENT, notFoundMsg cmd⟩)

/-- `process::validate` (result only). -/
def validate (eacc : Str → Option Int) (isReg : Str → Bool)
    (p : ProcessSpec) : Except SysErr Unit :=
  (validateT eacc isReg p).2

/-- Written from the claim wording, for comparison with the source: a
`$PATH` search that tests `segment/args[0]` only for non-empty segments,
skipping empty segments outright. -/
def searchSkipEmpty (eacc : Str → Option Int) (cmd : Str) : List Str → Bool
  | [] => false
  | e :: rest =>
    if e = [] then searchSkipEmpty eacc cmd rest
    else if eacc (pathConcat e cmd) = none then true
    else searchSkipEmpty eacc cmd rest

/-- Written from the claim wording, for comparison with the source:
`validate` with the empty-segment-skipping `$PATH` search. -/
def validateSkipEmpty (eacc : Str → Option Int) (isReg : Str → Bool)
    (p : ProcessSpec) : Except SysErr Unit :=
  let cmd := p.args.headD []
  if cmd.head? = some '/' then
    match eacc cmd with
    | some e => .error ⟨e, cmd⟩
    | none => if !isReg cmd then .error ⟨EACCES, cmd⟩ else .ok ()
  else
    let found :=
      match getenvList kPATH p.env with
      | some pathv => searchSkipEmpty eacc cmd (splitColon pathv)
      | none => false
    if found then .ok ()
    else
      let workdir := pathConcat p.cwd cmd
      if (eacc workdir).isNone && isReg workdir then .ok ()
      else .error ⟨ENOENT, notFoundMsg cmd⟩

/-! ### The identity drop (`process::set_uid_gid`) -/

/-- The four identity-drop system calls, with their arguments. -/
inductive SysCall where
  | setgroups (gids : List Int)
  | setgid (gid : Int)
  | setuid (uid : Int)
  | umask (mask : Int)
deriving DecidableEq

def mCallSetgroups : Str := "error calling setgroups".data

/-- The message in the `setgid` failure branch really says `getgid` in the
source (line 255). -/
def mCallGetgid : Str := "error calling getgid".data

def mCallSetuid : Str := "error calling setuid".data

def mCallUmask : Str := "error calling umask".data

/-- The identity-drop sequence in source order. -/
def fullSeq (p : ProcessSpec) : List SysCall :=
  [.setgroups p.gids, .setgid p.gid, .setuid p.uid, .umask p.umask]

/-- `process::set_uid_gid`: issue `setgroups`, `setgid`, `setuid`, `umask`
in that order against the OS oracle `os` (`none` = success, `some errno` =
failure); the first failure raises a `std::system_error` and aborts the
sequence. Returns the trace of calls issued and the error, if any. -/
def set_uid_gid (os : SysCall → Option Int) (p : ProcessSpec) :
    List SysCall × Option SysErr :=
  let c1 := SysCall.setgroups p.gids
  match os c1 with
  | some e => ([c1], some ⟨e, mCallSetgroups⟩)
  | none =>
    let c2 := SysCall.setgid p.gid
    match os c2 with
    | some e => ([c1, c2], some ⟨e, mCallGetgid⟩)
    | none =>
      let c3 := SysCall.setuid p.uid
      match os c3 with
      | some e => ([c1, c2, c3], some ⟨e, mCallSetuid⟩)
      | none =>
        let c4 := SysCall.umask p.umask
        match os c4 with
        | some e => ([c1, c2, c3, c4], some ⟨e, mCallUmask⟩)
        | none => ([c1, c2, c3, c4], none)

/-! ### Standard-stream wiring (`process::exec`, lines 300–310) -/

/-- One open file descriptor: the open-file object it refers to and its
close-on-exec flag. -/
structure FdEntry where
  obj : Nat
  cloexec : Bool
deriving DecidableEq

/-- The descriptor table: `none` means the descriptor is closed. -/
abbrev FdTable := Nat → Option FdEntry

def INT_MAX : Nat := 2147483647

/-- `::dup2(src, dst)`: make `dst` refer to the same open file as `src`
with the close-on-exec flag clear; no-op on an invalid `src` (`EBADF` —
`process::exec` ignores the return value). -/
def dup2 (tab : FdTable) (src dst : Nat) : FdTable :=
  match tab src with
  | none => tab
  | some e => fun fd => if fd = dst then some ⟨e.obj, false⟩ else tab fd

/-- `::close_range(lo, hi, CLOSE_RANGE_CLOEXEC)`: set the close-on-exec
flag on every open descriptor in `[lo, hi]`; with the `CLOSE_RANGE_CLOEXEC`
flag the descriptors are *not* closed. -/
def closeRangeCloexec (tab : FdTable) (lo hi : Nat) : FdTable :=
  fun fd =>
    if lo ≤ fd ∧ fd ≤ hi then (tab fd).map (fun e => ⟨e.obj, true⟩)
    else tab fd

/-- The three guarded `dup2` calls of `process::exec` (lines 301–309),
returning the `(src, dst)` pairs actually issued, in order, and the
resulting table. -/
def dupPhase (stdin_fd stdout_fd stderr_fd : Nat) (tab : FdTable) :
    List (Nat × Nat) × FdTable :=
  let s1 := if stdin_fd ≠ 0 then (([(stdin_fd, 0)] : List (Nat × Nat)), dup2 tab stdin_fd 0)
    else ([], tab)
  let s2 := if stdout_fd ≠ 1 then (s1.1 ++ [(stdout_fd, 1)], dup2 s1.2 stdout_fd 1)
    else s1
  let s3 := if stderr_fd ≠ 2 then (s2.1 ++ [(stderr_fd, 2)], dup2 s2.2 stderr_fd 2)
    else s2
  s3

/-- The standard-stream wiring step of `process::exec` (lines 300–310):
the guarded `dup2` calls followed by
`::close_range(3 + preserve_fds_, INT_MAX, CLOSE_RANGE_CLOEXEC)`. -/
def wire_streams (stdin_fd stdout_fd stderr_fd preserve_fds : Nat)
    (tab : FdTable) : List (Nat × Nat) × FdTable :=
  let s := dupPhase stdin_fd stdout_fd stderr_fd tab
  (s.1, closeRangeCloexec s.2 (3 + preserve_fds) INT_MAX)

/-! ### Concrete inputs used to evaluate the definitions -/

/-- An OS oracle on which every identity-drop call succeeds. -/
def osOk : SysCall → Option Int := fun _ => none

/-- An OS oracle on which exactly the `setgid` call fails (`errno` 1,
`EPERM`). -/
def osGidFails : SysCall → Option Int := fun c =>
  match c with
  | .setgid _ => some 1
  | _ => none

/-- A sample validated spec: `cwd=/`, `args=["sh"]`, root identity. -/
def p0 : ProcessSpec :=
  ⟨"/".data, ["sh".data], 0, 0, [0], 18, [], false, none, false, 0⟩

/-- Unknown-header defaults instantiated at concrete values. -/
def d0 : Defaults := ⟨0, 0, 18⟩

/-- A filesystem-stat oracle under which no path is a socket. -/
def noSock : Str → Bool := fun _ => false

/-- A minimal valid config with `terminal: true`. -/
def j0 : JVal :=
  .obj [(kCwd, .str ("/".data)), (kArgs, .arr [.str ("sh".data)]),
    (kTerminal, .bool true)]

/-- A valid config whose `user` has a numeric `umask` (value 7). -/
def j9 : JVal :=
  .obj [(kCwd, .str ("/".data)), (kArgs, .arr [.str ("sh".data)]),
    (kUser, .obj [(kUid, .num 5), (kGid, .num 6), (kUmask, .num 7)])]

/-- The `user` object of the spec's §8 example: gid 10,
additionalGids [100, 200]. -/
def j6user : List (Str × JVal) :=
  [(kUid, .num 1), (kGid, .num 10), (kAdditionalGids, .arr [.num 100, .num 200])]

/-- A valid config carrying `j6user`. -/
def j6 : JVal :=
  .obj [(kCwd, .str ("/".data)), (kArgs, .arr [.str ("sh".data)]),
    (kUser, .obj j6user)]

/-- `cwd=/tmp`, `args=["true"]`, `PATH=:` — a `$PATH` consisting of one
empty segment. -/
def p8c : ProcessSpec :=
  ⟨"/tmp".data, ["true".data], 0, 0, [0], 18, ["PATH=:".data], false, none,
    false, 0⟩

/-- An access oracle under which exactly the relative path `true` is
executable. -/
def eacc8c : Str → Option Int := fun s =>
  if s = "true".data then none else some 13

/-- A regular-file oracle under which no path is a regular file. -/
def noReg : Str → Bool := fun _ => false

/-- A descriptor table with descriptors 0–3 open and nothing marked
close-on-exec. -/
def tab0 : FdTable := fun fd => if fd ≤ 3 then some ⟨fd, false⟩ else none

/-! ### Helper lemmas -/

theorem dup2_ne (tab : FdTable) (src dst fd : Nat) (h : fd ≠ dst) :
    dup2 tab src dst fd = tab fd := by
  unfold dup2
  cases tab src <;> simp [h]

theorem parseNums_ok (msg : Str) (l : List JVal)
    (h : ∀ x ∈ l, x.isNum = true) :
    parseNums msg l = .ok (l.map JVal.toInt) := by
  induction l with
  | nil => rfl
  | cons x rest ih =>
    cases x <;> simp_all [parseNums, JVal.isNum, JVal.toInt, Except.map]

theorem parseStrs_ok (msg : Str) (l : List Str) :
    parseStrs msg (l.map JVal.str) = .ok l := by
  induction l with
  | nil => rfl
  | cons s rest ih => simp [parseStrs, ih, Except.map]

theorem jcontains_of_jlookup_ne_null (fields : List (Str × JVal)) (k : Str)
    (h : jlookup (.obj fields) k ≠ .null) :
    jcontains (.obj fields) k = true := by
  induction fields with
  | nil => simp [jlookup, jlookupFields] at h
  | cons f rest ih =>
    obtain ⟨a, b⟩ := f
    by_cases hk : a = k
    · simp [jcontains, hk]
    · have h2 : jlookup (.obj rest) k ≠ .null := by
        simpa [jlookup, jlookupFields, hk] using h
      simpa [jcontains, hk] using ih h2

/-! ### C1: identity-drop ordering -/

/-- C1: in `process::set_uid_gid`, the trace of issued calls is always an
initial segment of `[setgroups gids; setgid gid; setuid uid; umask umask]`;
every call except possibly the last in the trace succeeded; the run returns
no error exactly when all four calls succeed (and then the trace is the
whole sequence); and on an error the last issued call is the one that
failed — no later operation is attempted after a failure. -/
theorem identity_drop_order (os : SysCall → Option Int) (p : ProcessSpec) :
    (set_uid_gid os p).1 <+: fullSeq p
    ∧ (∀ c ∈ (set_uid_gid os p).1.dropLast, os c = none)
    ∧ ((set_uid_gid os p).2 = none ↔ ∀ c ∈ fullSeq p, os c = none)
    ∧ ((set_uid_gid os p).2 = none → (set_uid_gid os p).1 = fullSeq p)
    ∧ (∀ e, (set_uid_gid os p).2 = some e →
        ∃ c, (set_uid_gid os p).1.getLast? = some c ∧ os c ≠ none) := by
  unfold set_uid_gid fullSeq
  cases h1 : os (SysCall.setgroups p.gids) <;>
    cases h2 : os (SysCall.setgid p.gid) <;>
      cases h3 : os (SysCall.setuid p.uid) <;>
        cases h4 : os (SysCall.umask p.umask) <;>
          simp [h1, h2, h3, h4, List.cons_prefix_cons, List.nil_prefix,
            List.prefix_refl]

/-- Witness for C1: on an all-success oracle the trace is the full ordered
sequence. -/
theorem identity_drop_order_witness :
    (set_uid_gid osOk p0).1 = fullSeq p0 :=
  (identity_drop_order osOk p0).2.2.2.1 rfl

/-! ### C5: the failure message of the `setgid` step -/

/-- C5 (code bug): when `setgroups` succeeds and `setgid` fails with
`errno` 1, the raised error carries the OS error code but its message is
`"error calling getgid"` (source line 255) — it does not name the
gid-setting call. -/
theorem setgid_failure_reports_getgid :
    (set_uid_gid osGidFails p0).2 = some ⟨1, mCallGetgid⟩
    ∧ mCallGetgid ≠ "error calling setgid".data := by
  exact ⟨rfl, by decide⟩

/-! ### C9: the configured umask is never stored -/

theorem exceptMap_ok {α β ε : Type} (f : α → β) (x : Except ε α) (b : β)
    (h : x.map f = .ok b) : ∃ a, x = .ok a ∧ b = f a := by
  cases x with
  | error e => simp [Except.map] at h
  | ok a =>
    simp only [Except.map, Except.ok.injEq] at h
    exact ⟨a, rfl, h.symm⟩

theorem parseUser_ok_umask (d : Defaults) (j : JVal) (parts : IdentityParts)
    (h : parseUser d j = .ok parts) : parts.umask = d.umask0 := by
  by_cases hc : jcontains j kUser = true
  case neg =>
    simp only [parseUser, hc, if_false, Bool.false_eq_true] at h
    injection h with h2
    rw [← h2]
  case pos =>
    simp only [parseUser, hc, if_true] at h
    cases hu : jlookup j kUser <;> simp only [hu] at h <;>
      try exact Except.noConfusion h
    · injection h with h2
      rw [← h2]
    · rename_i fields
      cases hui : jlookup (.obj fields) kUid <;> simp only [hui] at h <;>
        try exact Except.noConfusion h
      cases hgi : jlookup (.obj fields) kGid <;> simp only [hgi] at h <;>
        try exact Except.noConfusion h
      by_cases hm : (jcontains (JVal.obj fields) kUmask
          && !(jlookup (JVal.obj fields) kUmask).isNum) = true
      case pos =>
        rw [if_pos hm] at h
        exact Except.noConfusion h
      case neg =>
        rw [if_neg hm] at h
        by_cases ha : jcontains (JVal.obj fields) kAdditionalGids = true
        case pos =>
          simp only [ha, if_true] at h
          cases hl : jlookup (.obj fields) kAdditionalGids <;>
            simp only [hl] at h <;> try exact Except.noConfusion h
          obtain ⟨gs, -, h2⟩ := exceptMap_ok _ _ _ h
          rw [h2]
        case neg =>
          simp only [ha, if_false, Bool.false_eq_true] at h
          injection h with h2
          rw [← h2]

theorem parsePhase1_ok_umask (d : Defaults) (j : JVal) (p1 : Phase1)
    (h : parsePhase1 d j = .ok p1) : p1.umask = d.umask0 := by
  unfold parsePhase1 at h
  repeat' split at h
  all_goals try exact Except.noConfusion h
  injection h with h2
  subst h2
  exact parseUser_ok_umask d j _ (by assumption)

theorem construct_ok_umask (d : Defaults) (j : JVal) (console : Option Str)
    (detach : Bool) (pf : Nat) (isock : Str → Bool) (p : ProcessSpec)
    (h : construct d j console detach pf isock = .ok p) :
    p.umask = d.umask0 := by
  unfold construct at h
  repeat' split at h
  all_goals try exact Except.noConfusion h
  injection h with h2
  subst h2
  exact parsePhase1_ok_umask d j _ (by assumption)

/-- C9: when `process.user.umask` is present and numeric, the
`malformed_config` guard does not fire (its condition is false), and — the
assignment `umask_ = user["umask"]` being unreachable — every spec the
constructor returns keeps the default umask, which is then the value the
identity-drop step passes to the `umask` call. -/
theorem umask_never_stored (d : Defaults) (j : JVal)
    (fields : List (Str × JVal))
    (hc : jcontains j kUser = true)
    (hu : jlookup j kUser = .obj fields)
    (hm1 : jcontains (JVal.obj fields) kUmask = true)
    (hm2 : (jlookup (JVal.obj fields) kUmask).isNum = true) :
    ((jcontains (JVal.obj fields) kUmask
        && !(jlookup (JVal.obj fields) kUmask).isNum) = false)
    ∧ (∀ (console : Option Str) (detach : Bool) (pf : Nat)
        (isock : Str → Bool) (p : ProcessSpec),
        construct d j console detach pf isock = .ok p →
          p.umask = d.umask0
          ∧ ∀ os : SysCall → Option Int, (∀ c, os c = none) →
              (set_uid_gid os p).1 =
                [.setgroups p.gids, .setgid p.gid, .setuid p.uid,
                  .umask d.umask0]) := by
  refine ⟨by simp [hm2], ?_⟩
  intro console detach pf isock p hok
  have humask := construct_ok_umask d j console detach pf isock p hok
  refine ⟨humask, ?_⟩
  intro os hos
  simp [set_uid_gid, hos, humask]

/-- Witness for C9: a config with `user.umask = 7` constructs successfully
and the resulting spec's umask is the header default (18), not 7. -/
theorem umask_never_stored_witness :
    (⟨"/".data, ["sh".data], 5, 6, [6], 18, [], false, none, false,
      0⟩ : ProcessSpec).umask = d0.umask0 :=
  ((umask_never_stored d0 j9 [(kUid, .num 5), (kGid, .num 6),
      (kUmask, .num 7)] rfl rfl rfl rfl).2
    none false 0 noSock _ rfl).1

/-! ### C6: the primary gid heads the supplementary list -/

/-- C6: for a present, valid `user` mapping the constructed supplementary
group list is the primary `gid` followed by the entries of
`additionalGids` in their original order, and `[gid]` when
`additionalGids` is absent. -/
theorem supplementary_gids_head (d : Defaults) (j : JVal)
    (fields : List (Str × JVal)) (i g : Int)
    (hc : jcontains j kUser = true)
    (hu : jlookup j kUser = .obj fields)
    (hi : jlookup (JVal.obj fields) kUid = .num i)
    (hg : jlookup (JVal.obj fields) kGid = .num g)
    (hm : (jcontains (JVal.obj fields) kUmask
        && !(jlookup (JVal.obj fields) kUmask).isNum) = false) :
    (jcontains (JVal.obj fields) kAdditionalGids = false →
      parseUser d j = .ok ⟨i, g, [g], d.umask0⟩)
    ∧ (∀ l, jlookup (JVal.obj fields) kAdditionalGids = .arr l →
        (∀ x ∈ l, x.isNum = true) →
        parseUser d j = .ok ⟨i, g, g :: l.map JVal.toInt, d.umask0⟩) := by
  constructor
  · intro hno
    simp [parseUser, hc, hu, hi, hg, hm, hno]
  · intro l hl hnum
    have hcont : jcontains (JVal.obj fields) kAdditionalGids = true := by
      apply jcontains_of_jlookup_ne_null
      rw [hl]
      simp
    simp [parseUser, hc, hu, hi, hg, hm, hcont, hl, parseNums_ok _ _ hnum,
      Except.map]

/-- Witness for C6: the spec's §8 example — `gid = 10`,
`additionalGids = [100, 200]` — yields supplementary gids
`[10, 100, 200]`. -/
theorem supplementary_gids_head_witness :
    parseUser d0 j6 = .ok ⟨1, 10, [10, 100, 200], 18⟩ :=
  (supplementary_gids_head d0 j6 j6user 1 10 rfl rfl rfl rfl rfl).2
    [.num 100, .num 200] rfl (by decide)

/-! ### C3: console-socket cross-field rule -/

/-- C3: once the document itself parses, a detached launch with
`terminal = true` fails with a `ConfigurationConflict` when no console
socket is given, and also when the given path fails the `fs::is_socket`
filesystem stat; with `terminal = false` any console socket is a
`ConfigurationConflict`; and `ConfigurationConflict` is a distinct error
kind from `MalformedConfig`. -/
theorem console_socket_cross_check (d : Defaults) (j : JVal)
    (console : Option Str) (detach : Bool) (pf : Nat)
    (isSocket : Str → Bool) (p1 : Phase1)
    (h : parsePhase1 d j = .ok p1) :
    (p1.terminal = true → detach = true → console = none →
      construct d j console detach pf isSocket =
        .error (.configurationConflict mConsoleRequired))
    ∧ (∀ cs, p1.terminal = true → detach = true → console = some cs →
        isSocket cs = false →
        construct d j console detach pf isSocket =
          .error (.configurationConflict mConsoleNotSocket))
    ∧ (∀ cs, p1.terminal = false → console = some cs →
        construct d j console detach pf isSocket =
          .error (.configurationConflict mConsoleNotTerminal))
    ∧ (∀ m1 m2, Err.configurationConflict m1 ≠ Err.malformedConfig m2) := by
  refine ⟨?_, ?_, ?_, ?_⟩
  · intro ht hd hcn
    subst hcn
    simp [construct, h, crossCheck, ht, hd]
  · intro cs ht hd hcs hs
    subst hcs
    simp [construct, h, crossCheck, ht, hd, hs]
  · intro cs ht hcs
    subst hcs
    simp [construct, h, crossCheck, ht]
  · intro m1 m2 hcontra
    exact Err.noConfusion hcontra

/-- Witness for C3: the spec's §8 scenario — `terminal: true`, detached,
no console socket — fails with the required-socket conflict. -/
theorem console_socket_cross_check_witness :
    construct d0 j0 none true 0 noSock =
      .error (.configurationConflict mConsoleRequired) :=
  (console_socket_cross_check d0 j0 none true 0 noSock
      ⟨"/".data, ["sh".data], 0, 0, [0], 18, [], true⟩ rfl).1 rfl rfl rfl

/-! ### C4: the regular-file requirement is asymmetric -/

/-- C4: an absolute `args[0]` validates exactly when it has execute access
*and* is a regular file; a bare name validates as soon as some `$PATH`
candidate has execute access, for *every* regular-file oracle (no
regular-file check on that path); the cwd-relative fallback again requires
both execute access and regular-file status. -/
theorem validate_regular_file_asymmetry (eacc : Str → Option Int)
    (isReg : Str → Bool) (p : ProcessSpec) :
    ((p.args.headD []).head? = some '/' →
      (validate eacc isReg p = .ok () ↔
        eacc (p.args.headD []) = none ∧ isReg (p.args.headD []) = true))
    ∧ ((p.args.headD []).head? ≠ some '/' →
        ∀ pathv, getenvList kPATH p.env = some pathv →
          (searchLoop eacc (p.args.headD []) (splitColon pathv)).2 = true →
          ∀ isReg2 : Str → Bool, validate eacc isReg2 p = .ok ())
    ∧ ((p.args.headD []).head? ≠ some '/' →
        ∀ pathv, getenvList kPATH p.env = some pathv →
          (searchLoop eacc (p.args.headD []) (splitColon pathv)).2 = false →
          (validate eacc isReg p = .ok () ↔
            eacc (pathConcat p.cwd (p.args.headD [])) = none
            ∧ isReg (pathConcat p.cwd (p.args.headD [])) = true)) := by
  refine ⟨?_, ?_, ?_⟩
  · intro habs
    unfold validate validateT
    set cmd := p.args.headD []
    rw [if_pos habs]
    cases he : eacc cmd with
    | some e => simp [he]
    | none =>
      cases hr : isReg cmd <;> simp [he, hr]
  · intro habs pathv hp hs isReg2
    unfold validate validateT
    set cmd := p.args.headD []
    rw [if_neg habs]
    simp [hp, hs]
  · intro habs pathv hp hs
    unfold validate validateT
    set cmd := p.args.headD []
    rw [if_neg habs]
    simp only [hp, hs, if_false, Bool.false_eq_true]
    cases he : eacc (pathConcat p.cwd cmd) <;>
      cases hr : isReg (pathConcat p.cwd cmd) <;>
        simp [he, hr]

/-- Witness for C4: an executable, regular absolute path validates. -/
theorem validate_regular_file_asymmetry_witness :
    validate (fun _ => none) (fun _ => true)
      ⟨"/".data, ["/bin/true".data], 0, 0, [0], 18, [], false, none,
        false, 0⟩ = .ok () :=
  ((validate_regular_file_asymmetry (fun _ => none) (fun _ => true)
      ⟨"/".data, ["/bin/true".data], 0, 0, [0], 18, [], false, none,
        false, 0⟩).1 rfl).mpr ⟨rfl, rfl⟩

/-! ### C8: the mechanics of the `$PATH` search -/

theorem searchLoop_found (eacc : Str → Option Int) (cmd : Str)
    (l1 : List Str) (e : Str) (l2 : List Str)
    (h1 : ∀ x ∈ l1, eacc (pathConcat x cmd) ≠ none)
    (h2 : eacc (pathConcat e cmd) = none) :
    searchLoop eacc cmd (l1 ++ e :: l2) =
      ((l1 ++ [e]).map (fun x => pathConcat x cmd), true) := by
  induction l1 with
  | nil => simp [searchLoop, h2]
  | cons x rest ih =>
    have hx := h1 x (by simp)
    have hrest : ∀ y ∈ rest, eacc (pathConcat y cmd) ≠ none := by
      intro y hy
      exact h1 y (by simp [hy])
    simp [searchLoop, hx, ih hrest]

theorem searchLoop_fail (eacc : Str → Option Int) (cmd : Str) (l : List Str)
    (h : ∀ x ∈ l, eacc (pathConcat x cmd) ≠ none) :
    searchLoop eacc cmd l = (l.map (fun x => pathConcat x cmd), false) := by
  induction l with
  | nil => rfl
  | cons x rest ih =>
    have hx := h x (by simp)
    have hrest : ∀ y ∈ rest, eacc (pathConcat y cmd) ≠ none := by
      intro y hy
      exact h y (by simp [hy])
    simp [searchLoop, hx, ih hrest]

/-- C8 (amended): for a bare `args[0]`, the `$PATH` value is split on
colons and the candidates `segment/args[0]` are tested strictly left to
right — an empty segment yielding `args[0]` itself rather than being
skipped; the first candidate with execute access ends the search with no
further candidate tested; only when every candidate fails is the
cwd-relative fallback tried (requiring execute access and regular-file
status), and if it also fails the result is the `ENOENT`
"not found in $PATH" error. -/
theorem path_search_order (eacc : Str → Option Int) (isReg : Str → Bool)
    (p : ProcessSpec) (pathv : Str)
    (habs : (p.args.headD []).head? ≠ some '/')
    (hpath : getenvList kPATH p.env = some pathv) :
    (∀ l1 e l2, splitColon pathv = l1 ++ e :: l2 →
      (∀ x ∈ l1, eacc (pathConcat x (p.args.headD [])) ≠ none) →
      eacc (pathConcat e (p.args.headD [])) = none →
      validateT eacc isReg p =
        ((l1 ++ [e]).map (fun x => pathConcat x (p.args.headD [])), .ok ()))
    ∧ ((∀ x ∈ splitColon pathv,
          eacc (pathConcat x (p.args.headD [])) ≠ none) →
        validateT eacc isReg p =
          ((splitColon pathv).map (fun x => pathConcat x (p.args.headD []))
              ++ [pathConcat p.cwd (p.args.headD [])],
            if (eacc (pathConcat p.cwd (p.args.headD []))).isNone
                && isReg (pathConcat p.cwd (p.args.headD [])) then .ok ()
            else .error ⟨ENOENT, notFoundMsg (p.args.headD [])⟩)) := by
  constructor
  · intro l1 e l2 hsplit hfail hfound
    unfold validateT
    set cmd := p.args.headD []
    rw [if_neg habs]
    simp [hpath, hsplit, searchLoop_found eacc cmd l1 e l2 hfail hfound]
  · intro hfail
    unfold validateT
    set cmd := p.args.headD []
    rw [if_neg habs]
    simp only [hpath, searchLoop_fail eacc cmd _ hfail]
    cases hw : (eacc (pathConcat p.cwd cmd)).isNone &&
        isReg (pathConcat p.cwd cmd) <;> simp [hw]

/-- Witness for C8: with `PATH=/bin` and an executable `/bin/true`, the
single candidate `/bin/true` is tested and validation succeeds. -/
theorem path_search_order_witness :
    validateT (fun s => if s = "/bin/true".data then none else some 13)
      noReg
      ⟨"/tmp".data, ["true".data], 0, 0, [0], 18, ["PATH=/bin".data],
        false, none, false, 0⟩ =
      (["/bin/true".data], .ok ()) :=
  (path_search_order (fun s => if s = "/bin/true".data then none else some 13)
      noReg
      ⟨"/tmp".data, ["true".data], 0, 0, [0], 18, ["PATH=/bin".data],
        false, none, false, 0⟩ ("/bin".data) (by decide) rfl).1
    [] ("/bin".data) [] rfl (by simp) rfl

/-- Counterexample for C8 as stated: with `PATH=:` (a single empty
segment) and the bare name `true` executable relative to the current
directory, the source tests the empty segment's candidate — `args[0]`
itself — and validation succeeds, while the claimed empty-segment-skipping
search would fail over to the cwd fallback and report `ENOENT`. -/
theorem path_search_empty_segment_cex :
    validate eacc8c noReg p8c = .ok ()
    ∧ validateSkipEmpty eacc8c noReg p8c =
        .error ⟨ENOENT, notFoundMsg ("true".data)⟩ :=
  ⟨rfl, rfl⟩

/-! ### C2: standard-stream wiring and the close phase -/

/-- C2 (amended): each chosen stream descriptor is `dup2`-ed onto 0/1/2
exactly when it differs from the target; every descriptor in
`[3 + preserve_fds, INT_MAX]` is then *marked close-on-exec* by
`close_range(..., CLOSE_RANGE_CLOEXEC)` — it stays open (same open-file
object) rather than being closed outright — and descriptors below
`3 + preserve_fds` are untouched by the close phase (those numbered ≥ 3
are untouched by the `dup2` phase as well). -/
theorem wire_streams_cloexec (si so se pf : Nat) (tab : FdTable) :
    ((wire_streams si so se pf tab).1 = (dupPhase si so se tab).1)
    ∧ ((si, 0) ∈ (wire_streams si so se pf tab).1 ↔ si ≠ 0)
    ∧ ((so, 1) ∈ (wire_streams si so se pf tab).1 ↔ so ≠ 1)
    ∧ ((se, 2) ∈ (wire_streams si so se pf tab).1 ↔ se ≠ 2)
    ∧ (∀ fd, 3 + pf ≤ fd → fd ≤ INT_MAX →
        (wire_streams si so se pf tab).2 fd =
          ((dupPhase si so se tab).2 fd).map (fun e => ⟨e.obj, true⟩))
    ∧ (∀ fd, 3 + pf ≤ fd → fd ≤ INT_MAX →
        (((wire_streams si so se pf tab).2 fd).isSome ↔
          ((dupPhase si so se tab).2 fd).isSome))
    ∧ (∀ fd, fd < 3 + pf →
        (wire_streams si so se pf tab).2 fd = (dupPhase si so se tab).2 fd)
    ∧ (∀ fd, 3 ≤ fd → (dupPhase si so se tab).2 fd = tab fd) := by
  have hmark : ∀ fd, 3 + pf ≤ fd → fd ≤ INT_MAX →
      (wire_streams si so se pf tab).2 fd =
        ((dupPhase si so se tab).2 fd).map (fun e => ⟨e.obj, true⟩) := by
    intro fd h1 h2
    simp [wire_streams, closeRangeCloexec, h1, h2]
  refine ⟨rfl, ?_, ?_, ?_, hmark, ?_, ?_, ?_⟩
  · by_cases h1 : si = 0 <;> by_cases h2 : so = 1 <;> by_cases h3 : se = 2 <;>
      simp [wire_streams, dupPhase, h1, h2, h3, Prod.ext_iff]
  · by_cases h1 : si = 0 <;> by_cases h2 : so = 1 <;> by_cases h3 : se = 2 <;>
      simp [wire_streams, dupPhase, h1, h2, h3, Prod.ext_iff]
  · by_cases h1 : si = 0 <;> by_cases h2 : so = 1 <;> by_cases h3 : se = 2 <;>
      simp [wire_streams, dupPhase, h1, h2, h3, Prod.ext_iff]
  · intro fd h1 h2
    rw [hmark fd h1 h2]
    simp
  · intro fd hfd
    have hnot : ¬(3 + pf ≤ fd ∧ fd ≤ INT_MAX) := by omega
    simp [wire_streams, closeRangeCloexec, hnot]
  · intro fd hfd
    have f0 : fd ≠ 0 := by omega
    have f1 : fd ≠ 1 := by omega
    have f2 : fd ≠ 2 := by omega
    by_cases h1 : si = 0 <;> by_cases h2 : so = 1 <;> by_cases h3 : se = 2 <;>
      simp [dupPhase, h1, h2, h3, dup2_ne _ _ _ _ f0, dup2_ne _ _ _ _ f1,
        dup2_ne _ _ _ _ f2]

/-- Witness for C2: descriptor 3 (with `preserve_fds = 0`) after wiring
carries the marked version of its dup-phase entry. -/
theorem wire_streams_cloexec_witness :
    (wire_streams 0 1 2 0 tab0).2 3 =
      ((dupPhase 0 1 2 tab0).2 3).map (fun e => ⟨e.obj, true⟩) :=
  (wire_streams_cloexec 0 1 2 0 tab0).2.2.2.2.1 3 (by decide) (by decide)

/-- Counterexample for C2 as stated: with all three streams already on
0/1/2 and `preserve_fds = 0`, descriptor 3 is *not* closed by the wiring
step — it is still open afterwards, merely marked close-on-exec. -/
theorem close_range_keeps_fd3_open_cex :
    (wire_streams 0 1 2 0 tab0).2 3 = some ⟨3, true⟩
    ∧ (wire_streams 0 1 2 0 tab0).2 3 ≠ none :=
  ⟨rfl, by decide⟩

/-! ### C7: getenv/setenv round-trip -/

theorem envKey_of_no_eq (e : Str) (h : '=' ∉ e) : envKey e = e := by
  induction e with
  | nil => rfl
  | cons c cs ih =>
    have hc : c ≠ '=' := by
      intro hcontra
      exact h (by simp [hcontra])
    have hcs : '=' ∉ cs := by
      intro hcontra
      exact h (List.mem_cons_of_mem _ hcontra)
    simp only [envKey, List.takeWhile_cons] at *
    simp [hc]
    intro x hx hxx
    exact hcs (hxx ▸ hx)

theorem envVal_of_no_eq (e : Str) (h : '=' ∉ e) : envVal e = [] := by
  induction e with
  | nil => rfl
  | cons c cs ih =>
    have hc : c ≠ '=' := by
      intro hcontra
      exact h (by simp [hcontra])
    have hcs : '=' ∉ cs := by
      intro hcontra
      exact h (List.mem_cons_of_mem _ hcontra)
    simp only [envVal, List.dropWhile_cons] at *
    simp [hc]
    simpa using ih hcs

theorem envKey_envEntry (key val : Str) (hk : '=' ∉ key) :
    envKey (envEntry key val) = key := by
  induction key with
  | nil => rfl
  | cons c cs ih =>
    have hc : c ≠ '=' := by
      intro hcontra
      exact hk (by simp [hcontra])
    have hcs : '=' ∉ cs := by
      intro hcontra
      exact hk (List.mem_cons_of_mem _ hcontra)
    have ih2 := ih hcs
    simp only [envEntry, envKey, List.cons_append, List.takeWhile_cons] at *
    simp [hc]
    simpa using ih2

theorem envVal_envEntry (key val : Str) (hk : '=' ∉ key) :
    envVal (envEntry key val) = val := by
  induction key with
  | nil => rfl
  | cons c cs ih =>
    have hc : c ≠ '=' := by
      intro hcontra
      exact hk (by simp [hcontra])
    have hcs : '=' ∉ cs := by
      intro hcontra
      exact hk (List.mem_cons_of_mem _ hcontra)
    have ih2 := ih hcs
    simp only [envEntry, envVal, List.cons_append, List.dropWhile_cons] at *
    simp [hc]
    simpa using ih2

theorem getenv_skip (key : Str) (l1 rest : List Str)
    (hn : ∀ x ∈ l1, envKey x ≠ key) :
    getenvList key (l1 ++ rest) = getenvList key rest := by
  revert hn
  induction l1 with
  | nil => intro _; rfl
  | cons x xs ih =>
    intro hn
    have hx := hn x (by simp)
    have ih2 := ih (fun y hy => hn y (by simp [hy]))
    simp [getenvList, hx, ih2]

theorem setenv_found (key val : Str) (l1 : List Str) (e : Str)
    (l2 : List Str) (he1 : ∀ x ∈ l1, '=' ∈ x)
    (hn : ∀ x ∈ l1, envKey x ≠ key) (hee : '=' ∈ e)
    (heq : envKey e = key) :
    setenvList key val (l1 ++ e :: l2) =
      some (l1 ++ envEntry key val :: l2) := by
  revert he1 hn
  induction l1 with
  | nil =>
    intro _ _
    simp [setenvList, hee, heq]
  | cons x xs ih =>
    intro he1 hn
    have hx1 := he1 x (by simp)
    have hx2 := hn x (by simp)
    have ih2 := ih (fun y hy => he1 y (by simp [hy]))
      (fun y hy => hn y (by simp [hy]))
    simp [setenvList, hx1, hx2, ih2]

theorem setenv_notfound (key val : Str) (env : List Str)
    (he : ∀ x ∈ env, '=' ∈ x) (hn : ∀ x ∈ env, envKey x ≠ key) :
    setenvList key val env = some (env ++ [envEntry key val]) := by
  revert he hn
  induction env with
  | nil => intro _ _; rfl
  | cons x xs ih =>
    intro he hn
    have hx1 := he x (by simp)
    have hx2 := hn x (by simp)
    have ih2 := ih (fun y hy => he y (by simp [hy]))
      (fun y hy => hn y (by simp [hy]))
    simp [setenvList, hx1, hx2, ih2]

/-- C7 (amended): for an environment whose entries each contain `=` and a
key containing no `=`: when no entry's key matches, `setenv` appends
exactly one entry at the end, and `getenv` afterwards returns the value;
when some entry matches, `setenv` overwrites the *first* matching entry in
place — same position, all other entries unchanged, length unchanged — and
`getenv` afterwards returns the value. -/
theorem setenv_getenv_roundtrip (env : List Str) (key val : Str)
    (hk : '=' ∉ key) (he : ∀ e ∈ env, '=' ∈ e) :
    ((∀ e ∈ env, envKey e ≠ key) →
      setenvList key val env = some (env ++ [envEntry key val])
      ∧ getenvList key (env ++ [envEntry key val]) = some val)
    ∧ (∀ l1 e l2, env = l1 ++ e :: l2 → envKey e = key →
        (∀ x ∈ l1, envKey x ≠ key) →
        setenvList key val env = some (l1 ++ envEntry key val :: l2)
        ∧ getenvList key (l1 ++ envEntry key val :: l2) = some val) := by
  constructor
  · intro hno
    refine ⟨setenv_notfound key val env he hno, ?_⟩
    rw [getenv_skip key env _ hno]
    simp [getenvList, envKey_envEntry key val hk, envVal_envEntry key val hk]
  · intro l1 e l2 henv heq hn
    subst henv
    have he1 : ∀ x ∈ l1, '=' ∈ x := fun x hx => he x (by simp [hx])
    have hee : '=' ∈ e := he e (by simp)
    refine ⟨setenv_found key val l1 e l2 he1 hn hee heq, ?_⟩
    rw [getenv_skip key l1 _ hn]
    simp [getenvList, envKey_envEntry key val hk, envVal_envEntry key val hk]

/-- Witness for C7: overwriting `FOO=bar` with `setenv("FOO","baz")`
keeps the single-entry shape and `getenv` returns `baz`. -/
theorem setenv_getenv_roundtrip_witness :
    setenvList ("FOO".data) ("baz".data) ["FOO=bar".data] =
      some ["FOO=baz".data]
    ∧ getenvList ("FOO".data) ["FOO=baz".data] = some ("baz".data) :=
  (setenv_getenv_roundtrip ["FOO=bar".data] ("FOO".data) ("baz".data)
    (by decide) (by decide)).2 [] ("FOO=bar".data) [] rfl (by decide)
    (by simp)

/-- Counterexample for C7 as stated: with the key `A=B` (containing `=`),
`setenv("A=B","c")` on an empty environment appends `A=B=c`, but
`getenv("A=B")` then returns nothing — the round-trip fails, because both
scans split at the *first* `=`. -/
theorem setenv_getenv_eq_key_cex :
    setenvList ("A=B".data) ("c".data) [] = some ["A=B=c".data]
    ∧ getenvList ("A=B".data) ["A=B=c".data] = none :=
  ⟨rfl, rfl⟩

/-! ### C10: the separator assertion in setenv -/

/-- C10 (amended): construction accepts environment entries without `=`
(they are validated as strings only), `getenv` on such an entry returns
the empty string, and `setenv` hits the `assert(pos != npos)` assertion
exactly on the entries it scans: the assertion is violated whenever the
environment contains a `=`-less entry and every entry before it both
contains `=` and does not match the key. -/
theorem setenv_assert_conditions :
    (∀ l : List Str, parseEnv (JVal.obj [(kEnv, .arr (l.map JVal.str))]) =
      .ok l)
    ∧ (∀ (rest : List Str) (e : Str), '=' ∉ e →
        getenvList e (e :: rest) = some [])
    ∧ (∀ (l1 : List Str) (e : Str) (l2 : List Str) (key val : Str),
        '=' ∉ e → (∀ x ∈ l1, '=' ∈ x ∧ envKey x ≠ key) →
        setenvList key val (l1 ++ e :: l2) = none) := by
  refine ⟨?_, ?_, ?_⟩
  · intro l
    simp [parseEnv, jcontains, jlookup, jlookupFields, parseStrs_ok]
  · intro rest e hne
    simp [getenvList, envKey_of_no_eq e hne, envVal_of_no_eq e hne]
  · intro l1 e l2 key val hne hl1
    revert hl1
    induction l1 with
    | nil =>
      intro _
      have : ¬('=' ∈ e) := hne
      simp [setenvList, this]
    | cons x xs ih =>
      intro hl1
      have hx := hl1 x (by simp)
      have ih2 := ih (fun y hy => hl1 y (by simp [hy]))
      simp [setenvList, hx.1, hx.2, ih2]

/-- Witness for C10: `setenv("K","2")` on the environment `["X"]` (one
entry, no `=`) violates the assertion. -/
theorem setenv_assert_conditions_witness :
    setenvList ("K".data) ("2".data) ["X".data] = none :=
  setenv_assert_conditions.2.2 [] ("X".data) [] ("K".data) ("2".data)
    (by decide) (by simp)

/-- Counterexample for C10 as stated: the environment `["K=1", "X"]`
contains the `=`-less entry `X`, yet `setenv("K","2")` succeeds — the
matching entry `K=1` is found before the scan reaches `X`, so the
assertion is not violated. -/
theorem setenv_assert_not_always_cex :
    setenvList ("K".data) ("2".data) ["K=1".data, "X".data] =
      some ["K=2".data, "X".data] := by
  rfl

end Ocijail
